import Mathlib

/-!
# Session-Rec-Engine: verification of the core components

Shallow embedding of the Python sources of the session-based recommendation
engine, together with proofs about the embedded operations.

Embedded modules:
* `src/coldstart/bandit.py` — `ThompsonSamplingBandit` and `ColdStartHandler`
* `src/monitoring/metrics.py` — `MetricsTracker`
* `src/utils/catalog.py` — `ItemCatalog` (index maps)
* `src/service.py` — `RecommendationService.get_recommendations`,
  `_get_model_recommendations` and `record_feedback`

Modelling conventions:
* Python floats are modelled as rationals (`ℚ`); the quantities involved
  (counters incremented by 1.0, latencies, percentile arithmetic) stay exact
  in the ranges the claims exercise.
* Python dictionaries keyed by item identifiers are modelled either as total
  functions (`String → ℚ`, read only at keys that are present in the
  corresponding key list) or as association lists when insertion order and
  key lookup both matter (`ItemCatalog`).
* Python's stable sort (`sorted`, and the sort inside `numpy.percentile`) is
  modelled by `List.insertionSort`, which is also stable.
* Calls into external collaborators that can raise (Session Store, Sequence
  Scorer) are modelled as `Except String`-valued oracle functions supplied in
  an environment record; the orchestrator code has no exception handler, so
  its embedding is the plain `Except` monad (errors propagate).
* The per-item random Beta draw in `select_items` is modelled as an oracle
  `sample : String → ℚ` giving the value drawn for each item in one call.
-/

/-! ## Bandit Engine — `src/coldstart/bandit.py` -/

/-- State of `ThompsonSamplingBandit`: the stored `item_ids` list and the
`alpha` / `beta` dictionaries (Beta shape parameters; `alpha` = successes,
`beta` = failures).  The dictionaries are modelled as total functions; the
code only ever reads them at keys belonging to `item_ids`. -/
structure ThompsonSamplingBandit where
  item_ids : List String
  alpha : String → ℚ
  beta : String → ℚ

/-- `ThompsonSamplingBandit.__init__` (bandit.py lines 14-24): stores the id
list and sets `alpha[item] = 1.0`, `beta[item] = 1.0` for every item. -/
def banditMk (item_ids : List String) : ThompsonSamplingBandit :=
  { item_ids := item_ids
    alpha := fun _ => 1
    beta := fun _ => 1 }

/-- Python constructors either raise or return the new object; `__init__`
performs no validation at all, so the `Except`-valued view of construction
always returns `Except.ok`. -/
def banditMkE (item_ids : List String) : Except String ThompsonSamplingBandit :=
  Except.ok (banditMk item_ids)

/-- Key list of a Python dict built by a comprehension over a list:
first occurrence of each key survives, in encounter order.  Models the
deduplication performed by `{item_id: ... for item_id in self.item_ids}`. -/
def pyDictKeys (l : List String) : List String :=
  l.foldl (fun acc x => if x ∈ acc then acc else acc ++ [x]) []

/-- Descending order on the sampled values; used to model
`sorted(samples.items(), key=lambda x: x[1], reverse=True)` (a stable sort,
descending in the sampled value). -/
def sampleDesc (sample : String → ℚ) : String → String → Prop :=
  fun a b => sample b ≤ sample a

instance sampleDescDec (sample : String → ℚ) : DecidableRel (sampleDesc sample) :=
  fun a b => inferInstanceAs (Decidable (sample b ≤ sample a))

/-- `ThompsonSamplingBandit.select_items` (bandit.py lines 26-44): draw one
sample per item (the draw is the oracle `sample`), sort the items by sampled
value descending with Python's stable sort, return the first `k`. -/
def selectItems (b : ThompsonSamplingBandit) (sample : String → ℚ) (k : ℕ) :
    List String :=
  let keys := pyDictKeys b.item_ids
  let sorted := List.insertionSort (sampleDesc sample) keys
  sorted.take k

/-- `ThompsonSamplingBandit.update` (bandit.py lines 46-58): unknown items are
ignored; otherwise a positive reward increments `alpha[item_id]` and a
non-positive reward increments `beta[item_id]`. -/
def banditUpdate (b : ThompsonSamplingBandit) (item_id : String) (reward : ℚ) :
    ThompsonSamplingBandit :=
  if item_id ∈ b.item_ids then
    if reward > 0 then
      { b with alpha := fun y => if y = item_id then b.alpha y + 1 else b.alpha y }
    else
      { b with beta := fun y => if y = item_id then b.beta y + 1 else b.beta y }
  else
    b

/-- One entry of the dictionary returned by
`ThompsonSamplingBandit.get_statistics`. -/
structure ItemStats where
  alpha : ℚ
  beta : ℚ
  estimated_ctr : ℚ
  total_impressions : ℚ

/-- `ThompsonSamplingBandit.get_statistics` (bandit.py lines 60-77), viewed at
one item (the code builds this entry for every `item_id` in `self.item_ids`):
`total = alpha + beta - 2`, `ctr = (alpha - 1) / total` when `total > 0`,
else `0.0`. -/
def getStatistics (b : ThompsonSamplingBandit) (item_id : String) : ItemStats :=
  let total := b.alpha item_id + b.beta item_id - 2
  { alpha := b.alpha item_id
    beta := b.beta item_id
    estimated_ctr := if total > 0 then (b.alpha item_id - 1) / total else 0
    total_impressions := total }

/-! ## Cold-Start Policy — `src/coldstart/bandit.py`, `ColdStartHandler` -/

/-- `ColdStartHandler` (bandit.py lines 101-113): a bandit plus the
session-maturity threshold (default 2). -/
structure ColdStartHandler where
  bandit : ThompsonSamplingBandit
  threshold : ℕ

/-- `ColdStartHandler.should_use_coldstart` (bandit.py lines 115-125):
`session_length < self.threshold`. -/
def shouldUseColdstart (threshold session_length : ℕ) : Bool :=
  decide (session_length < threshold)

/-- `ColdStartHandler.update_feedback` (bandit.py lines 139-148):
`reward = 1.0 if clicked else 0.0`, then `bandit.update`. -/
def updateFeedback (h : ColdStartHandler) (item_id : String) (clicked : Bool) :
    ColdStartHandler :=
  { h with bandit := banditUpdate h.bandit item_id (if clicked then 1 else 0) }

/-! ## Metrics Aggregator — `src/monitoring/metrics.py` -/

/-- State of `MetricsTracker`: the two bounded `deque(maxlen=window_size)`
windows and the three unbounded counters.  The lock only serialises access
and does not affect the sequential semantics modelled here. -/
structure MetricsTracker where
  window_size : ℕ
  hit_events : List ℕ
  latencies : List ℚ
  total_requests : ℕ
  coldstart_requests : ℕ
  model_requests : ℕ

/-- `MetricsTracker.__init__` (metrics.py lines 13-32). -/
def metricsMk (window_size : ℕ) : MetricsTracker :=
  { window_size := window_size
    hit_events := []
    latencies := []
    total_requests := 0
    coldstart_requests := 0
    model_requests := 0 }

/-- Appending to a `collections.deque(maxlen=n)`: the new element goes to the
right and, if the deque is full, the leftmost (oldest) element is evicted. -/
def dequeAppend {α : Type} (maxlen : ℕ) (xs : List α) (x : α) : List α :=
  let ys := xs ++ [x]
  ys.drop (ys.length - maxlen)

/-- The hit flag computed in `record_recommendation` (metrics.py line 52):
`hit = 1 if item_clicked and item_clicked in items_recommended else 0`.
Python truthiness: `None` and the empty string are both falsy. -/
def hitValue (items_recommended : List String) (item_clicked : Option String) : ℕ :=
  match item_clicked with
  | some c => if c ≠ "" ∧ c ∈ items_recommended then 1 else 0
  | none => 0

/-- `MetricsTracker.record_recommendation` (metrics.py lines 34-64): append
the hit flag, append the latency only when one was supplied, bump
`total_requests` and exactly one of the two strategy counters. -/
def recordRecommendation (m : MetricsTracker) (items_recommended : List String)
    (item_clicked : Option String) (latency_ms : Option ℚ)
    (used_coldstart : Bool) : MetricsTracker :=
  { m with
    hit_events := dequeAppend m.window_size m.hit_events
      (hitValue items_recommended item_clicked)
    latencies :=
      match latency_ms with
      | some l => dequeAppend m.window_size m.latencies l
      | none => m.latencies
    total_requests := m.total_requests + 1
    coldstart_requests :=
      if used_coldstart then m.coldstart_requests + 1 else m.coldstart_requests
    model_requests :=
      if used_coldstart then m.model_requests else m.model_requests + 1 }

/-- Arguments of one `record_recommendation` call. -/
structure RecEvent where
  items : List String
  clicked : Option String
  latency : Option ℚ
  used_coldstart : Bool

/-- A sequence of `record_recommendation` calls. -/
def recordEvents (m : MetricsTracker) (es : List RecEvent) : MetricsTracker :=
  es.foldl (fun m e => recordRecommendation m e.items e.clicked e.latency e.used_coldstart) m

/-- `numpy.percentile(xs, q)` with the default linear-interpolation method:
over the ascending sort `ys` of `xs` of length `n`, the (virtual) position is
`pos = q/100 * (n-1)`; the result interpolates linearly between the elements
at indices `⌊pos⌋` and `⌊pos⌋ + 1`. -/
def npPercentile (xs : List ℚ) (q : ℚ) : ℚ :=
  let ys := List.insertionSort (fun a b : ℚ => a ≤ b) xs
  if ys.length = 0 then 0
  else
    let pos : ℚ := q / 100 * ((ys.length : ℚ) - 1)
    let lo : ℕ := (Int.floor pos).toNat
    let a := ys.getD lo 0
    let b := ys.getD (lo + 1) a
    a + (pos - (lo : ℚ)) * (b - a)

/-- `MetricsTracker._calculate_p99_latency` (metrics.py lines 72-76):
`0.0` on the empty window, else `np.percentile(latencies, 99)`. -/
def calculateP99Latency (m : MetricsTracker) : ℚ :=
  if m.latencies = [] then 0 else npPercentile m.latencies 99

/-- `MetricsTracker._calculate_p50_latency` (metrics.py lines 84-88):
`0.0` on the empty window, else `np.percentile(latencies, 50)`. -/
def calculateP50Latency (m : MetricsTracker) : ℚ :=
  if m.latencies = [] then 0 else npPercentile m.latencies 50

/-- `MetricsTracker._calculate_hit_rate` (metrics.py lines 66-70). -/
def calculateHitRate (m : MetricsTracker) : ℚ :=
  if m.hit_events = [] then 0
  else ((m.hit_events.sum : ℚ) / (m.hit_events.length : ℚ)) * 100

/-- `MetricsTracker._calculate_average_latency` (metrics.py lines 78-82). -/
def calculateAverageLatency (m : MetricsTracker) : ℚ :=
  if m.latencies = [] then 0 else m.latencies.sum / (m.latencies.length : ℚ)

/-- Python's `round` ties-to-even integer rounding, on exact rationals. -/
def roundHalfEven (q : ℚ) : ℤ :=
  if q - (Int.floor q : ℚ) = 1 / 2 then
    (if 2 ∣ Int.floor q then Int.floor q else Int.floor q + 1)
  else
    round q

/-- Python's `round(x, 2)` modelled on exact rationals. -/
def pyRound2 (q : ℚ) : ℚ :=
  (roundHalfEven (q * 100) : ℚ) / 100

/-- The dictionary returned by `MetricsTracker.get_metrics_summary`. -/
structure MetricsSummary where
  hit_rate_at_10 : ℚ
  p99_latency_ms : ℚ
  p50_latency_ms : ℚ
  avg_latency_ms : ℚ
  total_requests : ℕ
  coldstart_requests : ℕ
  model_requests : ℕ
  coldstart_percentage : ℚ

/-- `MetricsTracker.get_metrics_summary` (metrics.py lines 133-157): the four
windowed statistics rounded to two decimals, the raw counters, and the
cold-start percentage. -/
def getMetricsSummary (m : MetricsTracker) : MetricsSummary :=
  { hit_rate_at_10 := pyRound2 (calculateHitRate m)
    p99_latency_ms := pyRound2 (calculateP99Latency m)
    p50_latency_ms := pyRound2 (calculateP50Latency m)
    avg_latency_ms := pyRound2 (calculateAverageLatency m)
    total_requests := m.total_requests
    coldstart_requests := m.coldstart_requests
    model_requests := m.model_requests
    coldstart_percentage := pyRound2
      (if m.total_requests > 0 then
        ((m.coldstart_requests : ℚ) / (m.total_requests : ℚ)) * 100
      else 0) }

/-- Modelled from the spec: the *nearest-rank* percentile the specification
describes for the summary (glossary: "percentile computed by selecting the
value at a rank index derived from the percentile and sample count, without
interpolation"); rank `⌈q/100 · n⌉` (1-based) into the ascending sort, `0`
for the empty window.  This definition follows the spec's words and is only
used to compare the specified percentile with the one the code computes. -/
def nearestRankPercentile (xs : List ℚ) (q : ℚ) : ℚ :=
  let ys := List.insertionSort (fun a b : ℚ => a ≤ b) xs
  if ys.length = 0 then 0
  else ys.getD ((Int.ceil (q / 100 * (ys.length : ℚ))).toNat - 1) 0

/-! ## Item catalog — `src/utils/catalog.py` -/

/-- The two index dictionaries of `ItemCatalog`, as insertion-ordered
association lists (Python dicts preserve insertion order and have unique
keys).  The `items` metadata dictionary is not modelled: no operation under
verification reads it. -/
structure ItemCatalog where
  item_to_idx : List (String × ℕ)
  idx_to_item : List (ℕ × String)

/-- `ItemCatalog.__init__` (catalog.py lines 10-14). -/
def emptyCatalog : ItemCatalog :=
  { item_to_idx := [], idx_to_item := [] }

/-- Python dict lookup `self.item_to_idx.get(item_id, 0)`
(catalog.py lines 33-35): `0` for unknown items (the padding index). -/
def getItemIndex (c : ItemCatalog) (item_id : String) : ℕ :=
  match c.item_to_idx.find? (fun p => p.1 == item_id) with
  | some p => p.2
  | none => 0

/-- Python dict lookup `self.idx_to_item.get(idx, "unknown")`
(catalog.py lines 37-39). -/
def getItemId (c : ItemCatalog) (idx : ℕ) : String :=
  match c.idx_to_item.find? (fun p => p.1 == idx) with
  | some p => p.2
  | none => "unknown"

/-- One iteration of the loop in `ItemCatalog.add_items` (catalog.py lines
23-31): if the id is new, both index maps gain an entry with index
`len(self.item_to_idx) + 1` (index `0` is reserved for padding). -/
def addItem (c : ItemCatalog) (item_id : String) : ItemCatalog :=
  if (c.item_to_idx.find? (fun p => p.1 == item_id)).isSome then c
  else
    let idx := c.item_to_idx.length + 1
    { item_to_idx := c.item_to_idx ++ [(item_id, idx)]
      idx_to_item := c.idx_to_item ++ [(idx, item_id)] }

/-- `ItemCatalog.add_items` (catalog.py lines 16-31), at the level of the
item ids carried by the argument dictionaries. -/
def addItems (c : ItemCatalog) (ids : List String) : ItemCatalog :=
  ids.foldl addItem c

/-- Structural invariant `add_items` maintains on the two index dictionaries:
`idx_to_item` is the key-value mirror of `item_to_idx`, item keys and index
values are unique, and every assigned index lies in `1 .. len(item_to_idx)`
(index `0` stays reserved for padding/unknown). -/
def CatalogInv (c : ItemCatalog) : Prop :=
  c.idx_to_item = c.item_to_idx.map (fun p => (p.2, p.1)) ∧
  (c.item_to_idx.map Prod.fst).Nodup ∧
  (c.item_to_idx.map Prod.snd).Nodup ∧
  ∀ p ∈ c.item_to_idx, 1 ≤ p.2 ∧ p.2 ≤ c.item_to_idx.length

/-! ## Recommendation orchestrator — `src/service.py` -/

/-- The collaborators and configuration a `RecommendationService` holds, as
seen by `get_recommendations`.  The Session Store reads
(`get_session_length`, `get_item_sequence`) and the Sequence Scorer call
(`predict_next_items`, already composed with the tensor plumbing of lines
126-135 so that it maps a padded index sequence to the top-k index list) are
`Except`-valued: any of them may raise, and the orchestrator code contains no
exception handler.  `coldstart_recs` is the output of
`ColdStartHandler.get_recommendations` (a Thompson-sampling draw, treated as
an oracle because its randomness is external to the orchestration logic). -/
structure OrchestratorEnv where
  threshold : ℕ
  top_k : ℕ
  sequence_length : ℕ
  get_session_length : String → Except String ℕ
  get_item_sequence : String → ℕ → Except String (List String)
  predict_next_items : List ℕ → ℕ → Except String (List ℕ)
  catalog : ItemCatalog
  coldstart_recs : ℕ → List String

/-- The padding/truncation of `_get_model_recommendations` (service.py lines
117-123): left-pad with the padding index `0` up to `sequence_length`, or
keep only the `sequence_length` most recent indices (`item_indices[-L:]`). -/
def padTruncate (sequence_length : ℕ) (item_indices : List ℕ) : List ℕ :=
  if item_indices.length < sequence_length then
    List.replicate (sequence_length - item_indices.length) 0 ++ item_indices
  else
    item_indices.drop (item_indices.length - sequence_length)

/-- The supplement loop of `_get_model_recommendations` (service.py lines
146-152): walk the cold-start list, append unseen entries, stop as soon as
`top_k` recommendations are reached. -/
def supplementRecs (recommendations coldstart_recs : List String) (top_k : ℕ) :
    List String :=
  match coldstart_recs with
  | [] => recommendations
  | rec :: rest =>
    let recommendations' :=
      if rec ∈ recommendations then recommendations else recommendations ++ [rec]
    if top_k ≤ recommendations'.length then recommendations'
    else supplementRecs recommendations' rest top_k

/-- `RecommendationService._get_model_recommendations` (service.py lines
93-154).  Reads the item sequence from the Session Store; an empty sequence
falls back to cold-start output; otherwise the sequence is mapped to catalog
indices, padded/truncated, scored by the Sequence Scorer, mapped back to
item ids, `"unknown"` ids are dropped, under-filled results are supplemented
from cold-start, and the first `top_k` entries are returned.  Exceptions
from the store or the scorer propagate. -/
def getModelRecommendations (env : OrchestratorEnv) (session_id : String) :
    Except String (List String) := do
  let item_ids ← env.get_item_sequence session_id env.sequence_length
  if item_ids = [] then
    return env.coldstart_recs env.top_k
  else
    let item_indices := item_ids.map (getItemIndex env.catalog)
    let item_seq := padTruncate env.sequence_length item_indices
    let top_items ← env.predict_next_items item_seq env.top_k
    let recommendations :=
      (top_items.map (getItemId env.catalog)).filter (fun i => i ≠ "unknown")
    let recommendations :=
      if recommendations.length < env.top_k then
        supplementRecs recommendations (env.coldstart_recs env.top_k) env.top_k
      else recommendations
    return recommendations.take env.top_k

/-- `RecommendationService.get_recommendations` (service.py lines 61-91),
restricted to its returned value `(recommendations, used_coldstart)`.  The
latency timing and the `metrics_tracker.record_recommendation` call of lines
71 and 84-89 touch no state any claim about the return value depends on and
are not modelled here.  There is no `try`/`except` in the source: an
exception raised below the cold-start branch propagates to the caller. -/
def getRecommendations (env : OrchestratorEnv) (session_id : String) :
    Except String (List String × Bool) := do
  let session_length ← env.get_session_length session_id
  if shouldUseColdstart env.threshold session_length then
    return (env.coldstart_recs env.top_k, true)
  else
    let recommendations ← getModelRecommendations env session_id
    return (recommendations, false)

/-- The state `RecommendationService.record_feedback` mutates: the metrics
tracker and the cold-start handler's bandit. -/
structure FeedbackState where
  metrics : MetricsTracker
  coldstart : ColdStartHandler

/-- `RecommendationService.record_feedback` (service.py lines 156-178): one
`record_recommendation` call with no click latency and the default
`used_coldstart=False`, then one bandit update per recommended item with
`clicked = (clicked_item == item_id)`. -/
def recordFeedback (s : FeedbackState) (recommended_items : List String)
    (clicked_item : Option String) : FeedbackState :=
  { metrics := recordRecommendation s.metrics recommended_items clicked_item none false
    coldstart := recommended_items.foldl
      (fun h item_id => updateFeedback h item_id (decide (clicked_item = some item_id)))
      s.coldstart }

/-! ## Helper lemmas -/

lemma pyDictKeys_go_of_nodup (l : List String) :
    ∀ acc : List String, (acc ++ l).Nodup →
      l.foldl (fun acc x => if x ∈ acc then acc else acc ++ [x]) acc = acc ++ l := by
  induction l with
  | nil => intro acc _; simp
  | cons x xs ih =>
    intro acc h
    have hx : x ∉ acc := by
      rcases List.nodup_append.mp h with ⟨-, -, hdisj⟩
      intro hmem
      exact hdisj hmem (by simp)
    have h' : ((acc ++ [x]) ++ xs).Nodup := by
      simpa [List.append_assoc] using h
    simp only [List.foldl_cons, if_neg hx]
    rw [ih (acc ++ [x]) h']
    simp

lemma pyDictKeys_of_nodup (l : List String) (h : l.Nodup) : pyDictKeys l = l := by
  simpa using pyDictKeys_go_of_nodup l [] (by simpa using h)

lemma banditUpdate_item_ids (b : ThompsonSamplingBandit) (x : String) (r : ℚ) :
    (banditUpdate b x r).item_ids = b.item_ids := by
  unfold banditUpdate
  split <;> [skip; rfl]
  split <;> rfl

lemma banditUpdate_alpha_other (b : ThompsonSamplingBandit) (x : String) (r : ℚ)
    (y : String) (hyx : y ≠ x) : (banditUpdate b x r).alpha y = b.alpha y := by
  unfold banditUpdate
  split <;> [skip; rfl]
  split <;> simp [hyx]

lemma banditUpdate_beta_other (b : ThompsonSamplingBandit) (x : String) (r : ℚ)
    (y : String) (hyx : y ≠ x) : (banditUpdate b x r).beta y = b.beta y := by
  unfold banditUpdate
  split <;> [skip; rfl]
  split <;> simp [hyx]

lemma banditUpdate_pos (b : ThompsonSamplingBandit) (x : String) (r : ℚ)
    (hx : x ∈ b.item_ids) (hr : 0 < r) :
    (banditUpdate b x r).alpha x = b.alpha x + 1 ∧
    (banditUpdate b x r).beta x = b.beta x := by
  unfold banditUpdate
  rw [if_pos hx, if_pos hr]
  exact ⟨by simp, rfl⟩

lemma banditUpdate_nonpos (b : ThompsonSamplingBandit) (x : String) (r : ℚ)
    (hx : x ∈ b.item_ids) (hr : ¬ 0 < r) :
    (banditUpdate b x r).alpha x = b.alpha x ∧
    (banditUpdate b x r).beta x = b.beta x + 1 := by
  unfold banditUpdate
  rw [if_pos hx, if_neg hr]
  exact ⟨rfl, by simp⟩

lemma foldl_banditUpdate_counts (x : String) (rs : List ℚ) :
    ∀ b : ThompsonSamplingBandit, x ∈ b.item_ids → (∀ r ∈ rs, r = 1 ∨ r = 0) →
      (rs.foldl (fun b r => banditUpdate b x r) b).alpha x = b.alpha x + rs.count 1 ∧
      (rs.foldl (fun b r => banditUpdate b x r) b).beta x = b.beta x + rs.count 0 ∧
      (rs.foldl (fun b r => banditUpdate b x r) b).item_ids = b.item_ids := by
  induction rs with
  | nil => intro b _ _; simp
  | cons r rest ih =>
    intro b hb hrs
    have hb' : x ∈ (banditUpdate b x r).item_ids := by
      rw [banditUpdate_item_ids]; exact hb
    have hrest : ∀ r ∈ rest, r = 1 ∨ r = 0 := fun r hr => hrs r (List.mem_cons_of_mem _ hr)
    obtain ⟨ha, hbe, hids⟩ := ih (banditUpdate b x r) hb' hrest
    rcases hrs r (List.mem_cons_self r rest) with h1 | h0
    · subst h1
      obtain ⟨hu1, hu2⟩ := banditUpdate_pos b x 1 hb (by norm_num)
      refine ⟨?_, ?_, ?_⟩
      · rw [List.foldl_cons, ha, hu1, List.count_cons]
        push_cast
        norm_num
        ring
      · rw [List.foldl_cons, hbe, hu2, List.count_cons]
        norm_num
      · rw [List.foldl_cons, hids, banditUpdate_item_ids]
    · subst h0
      obtain ⟨hu1, hu2⟩ := banditUpdate_nonpos b x 0 hb (by norm_num)
      refine ⟨?_, ?_, ?_⟩
      · rw [List.foldl_cons, ha, hu1, List.count_cons]
        norm_num
      · rw [List.foldl_cons, hbe, hu2, List.count_cons]
        push_cast
        norm_num
        ring
      · rw [List.foldl_cons, hids, banditUpdate_item_ids]

/-! ## Claim theorems: Bandit Engine -/

/-- C2 (counterexample): the constructor performs no emptiness check — with
the empty item set it returns a normally constructed bandit (no `InvalidInput`
failure), refuting "Bandit initialization with an empty item set fails with an
InvalidInput error". -/
theorem banditMk_empty_does_not_fail :
    banditMkE [] = Except.ok (banditMk []) ∧ (banditMk []).item_ids = [] :=
  ⟨rfl, rfl⟩

/-- C2 (amended): bandit initialization never fails — with the empty item set
it succeeds and returns a bandit with no items; for every item set it stores
the id list and sets successes (`alpha`) = 1.0 and failures (`beta`) = 1.0
for every item in the set. -/
theorem banditMk_unit_priors (ids : List String) (x : String) (hx : x ∈ ids) :
    banditMkE ids = Except.ok (banditMk ids) ∧
    (banditMk ids).item_ids = ids ∧
    (banditMk ids).alpha x = 1 ∧ (banditMk ids).beta x = 1 :=
  ⟨rfl, rfl, rfl, rfl⟩

/-- C2 (witness): the amended theorem applied at the item set `{"a", "b"}`. -/
theorem banditMk_unit_priors_witness :
    "a" ∈ ["a", "b"] ∧
    (banditMkE ["a", "b"] = Except.ok (banditMk ["a", "b"]) ∧
     (banditMk ["a", "b"]).item_ids = ["a", "b"] ∧
     (banditMk ["a", "b"]).alpha "a" = 1 ∧ (banditMk ["a", "b"]).beta "a" = 1) :=
  have hx : "a" ∈ ["a", "b"] := by simp
  ⟨hx, banditMk_unit_priors ["a", "b"] "a" hx⟩

/-- C5: for a bandit initialized with a non-empty duplicate-free item set and
any positive `k`, `select_items` returns an ordered list of exactly
`min k |items|` identifiers, pairwise distinct, all drawn from the item
set — for every oracle assignment of sampled Beta values. -/
theorem select_items_spec (ids : List String) (sample : String → ℚ) (k : ℕ)
    (hnd : ids.Nodup) (hne : ids ≠ []) (hk : 0 < k) :
    (selectItems (banditMk ids) sample k).length = min k ids.length ∧
    (selectItems (banditMk ids) sample k).Nodup ∧
    ∀ x ∈ selectItems (banditMk ids) sample k, x ∈ ids := by
  have hkeys : pyDictKeys (banditMk ids).item_ids = ids := pyDictKeys_of_nodup ids hnd
  have hperm : (List.insertionSort (sampleDesc sample) ids).Perm ids :=
    List.perm_insertionSort _ ids
  refine ⟨?_, ?_, ?_⟩
  · rw [selectItems, hkeys, List.length_take, hperm.length_eq]
  · rw [selectItems, hkeys]
    exact ((hperm.nodup_iff).mpr hnd).sublist (List.take_sublist _ _)
  · intro x hx
    rw [selectItems, hkeys] at hx
    exact hperm.mem_iff.mp (List.take_subset _ _ hx)

/-- C5 (witness): the theorem applied to the item set `{"a", "b", "c"}`, a
constant sampling oracle and `k = 2`. -/
theorem select_items_spec_witness :
    (["a", "b", "c"] : List String).Nodup ∧ (["a", "b", "c"] : List String) ≠ [] ∧ 0 < 2 ∧
    ((selectItems (banditMk ["a", "b", "c"]) (fun _ => 1) 2).length
        = min 2 (["a", "b", "c"] : List String).length ∧
     (selectItems (banditMk ["a", "b", "c"]) (fun _ => 1) 2).Nodup ∧
     ∀ x ∈ selectItems (banditMk ["a", "b", "c"]) (fun _ => 1) 2,
       x ∈ (["a", "b", "c"] : List String)) :=
  have h1 : (["a", "b", "c"] : List String).Nodup := by simp
  have h2 : (["a", "b", "c"] : List String) ≠ [] := by simp
  ⟨h1, h2, by norm_num,
    select_items_spec ["a", "b", "c"] (fun _ => 1) 2 h1 h2 (by norm_num)⟩

/-- C6: starting from a freshly initialized bandit, after `n` updates with
reward 1.0 and `m` updates with reward 0.0 on a known item, in any
interleaving, that item's successes are `1 + n` and failures `1 + m`, and the
statistics report `impressions = n + m` and
`estimated_ctr = n / (n + m)` when `n + m > 0` (`0` when `n + m = 0`). -/
theorem bandit_update_statistics (ids : List String) (x : String) (hx : x ∈ ids)
    (rs : List ℚ) (hrs : ∀ r ∈ rs, r = 1 ∨ r = 0) :
    (rs.foldl (fun b r => banditUpdate b x r) (banditMk ids)).alpha x
        = 1 + (rs.count 1 : ℚ) ∧
    (rs.foldl (fun b r => banditUpdate b x r) (banditMk ids)).beta x
        = 1 + (rs.count 0 : ℚ) ∧
    (getStatistics (rs.foldl (fun b r => banditUpdate b x r) (banditMk ids)) x).total_impressions
        = (rs.count 1 : ℚ) + (rs.count 0 : ℚ) ∧
    (getStatistics (rs.foldl (fun b r => banditUpdate b x r) (banditMk ids)) x).estimated_ctr
        = (if 0 < rs.count 1 + rs.count 0 then
            (rs.count 1 : ℚ) / ((rs.count 1 : ℚ) + (rs.count 0 : ℚ)) else 0) := by
  obtain ⟨ha, hb, -⟩ :=
    foldl_banditUpdate_counts x rs (banditMk ids) (by simpa [banditMk] using hx) hrs
  have ha' : (rs.foldl (fun b r => banditUpdate b x r) (banditMk ids)).alpha x
      = 1 + (rs.count 1 : ℚ) := by simpa [banditMk] using ha
  have hb' : (rs.foldl (fun b r => banditUpdate b x r) (banditMk ids)).beta x
      = 1 + (rs.count 0 : ℚ) := by simpa [banditMk] using hb
  refine ⟨ha', hb', ?_, ?_⟩
  · simp only [getStatistics, ha', hb']
    ring
  · simp only [getStatistics, ha', hb']
    have htot : (1 + (rs.count 1 : ℚ)) + (1 + (rs.count 0 : ℚ)) - 2
        = (rs.count 1 : ℚ) + (rs.count 0 : ℚ) := by ring
    rw [htot]
    by_cases hpos : 0 < rs.count 1 + rs.count 0
    · rw [if_pos hpos, if_pos]
      · ring_nf
      · have : (0 : ℚ) < ((rs.count 1 + rs.count 0 : ℕ) : ℚ) := by
          exact_mod_cast hpos
        push_cast at this
        linarith
    · have h1 : rs.count 1 = 0 := by omega
      have h0 : rs.count 0 = 0 := by omega
      rw [if_neg hpos, h1, h0]
      norm_num

/-- C6 (witness): the theorem applied to item `"a"` of the set `{"a", "b"}`
with the interleaved reward sequence `[1, 0, 1]` (`n = 2`, `m = 1`). -/
theorem bandit_update_statistics_witness :
    "a" ∈ ["a", "b"] ∧ (∀ r ∈ [(1 : ℚ), 0, 1], r = 1 ∨ r = 0) ∧
    (([(1 : ℚ), 0, 1].foldl (fun b r => banditUpdate b "a" r) (banditMk ["a", "b"])).alpha "a"
        = 1 + ([(1 : ℚ), 0, 1].count 1 : ℚ) ∧
     ([(1 : ℚ), 0, 1].foldl (fun b r => banditUpdate b "a" r) (banditMk ["a", "b"])).beta "a"
        = 1 + ([(1 : ℚ), 0, 1].count 0 : ℚ) ∧
     (getStatistics
        ([(1 : ℚ), 0, 1].foldl (fun b r => banditUpdate b "a" r) (banditMk ["a", "b"]))
        "a").total_impressions
        = ([(1 : ℚ), 0, 1].count 1 : ℚ) + ([(1 : ℚ), 0, 1].count 0 : ℚ) ∧
     (getStatistics
        ([(1 : ℚ), 0, 1].foldl (fun b r => banditUpdate b "a" r) (banditMk ["a", "b"]))
        "a").estimated_ctr
        = (if 0 < [(1 : ℚ), 0, 1].count 1 + [(1 : ℚ), 0, 1].count 0 then
            ([(1 : ℚ), 0, 1].count 1 : ℚ)
              / (([(1 : ℚ), 0, 1].count 1 : ℚ) + ([(1 : ℚ), 0, 1].count 0 : ℚ))
           else 0)) :=
  have hx : "a" ∈ ["a", "b"] := by simp
  have hrs : ∀ r ∈ [(1 : ℚ), 0, 1], r = 1 ∨ r = 0 := by
    intro r hr
    simp only [List.mem_cons, List.not_mem_nil, or_false] at hr
    rcases hr with h | h | h <;> simp [h]
  ⟨hx, hrs, bandit_update_statistics ["a", "b"] "a" hx [(1 : ℚ), 0, 1] hrs⟩

/-- C8: updating the bandit at an identifier outside the initialized item set
is a no-op for any reward — the item-id list and every item's successes and
failures are unchanged (and, the embedding being total, no error occurs). -/
theorem bandit_update_unknown_noop (b : ThompsonSamplingBandit) (item_id : String)
    (reward : ℚ) (h : item_id ∉ b.item_ids) :
    (banditUpdate b item_id reward).item_ids = b.item_ids ∧
    (∀ y, (banditUpdate b item_id reward).alpha y = b.alpha y) ∧
    (∀ y, (banditUpdate b item_id reward).beta y = b.beta y) := by
  unfold banditUpdate
  rw [if_neg h]
  exact ⟨rfl, fun _ => rfl, fun _ => rfl⟩

/-- C8 (witness): the theorem applied to the unknown item `"zz"` of a bandit
over `{"a"}`, with reward 1. -/
theorem bandit_update_unknown_noop_witness :
    "zz" ∉ (banditMk ["a"]).item_ids ∧
    ((banditUpdate (banditMk ["a"]) "zz" 1).item_ids = (banditMk ["a"]).item_ids ∧
     (∀ y, (banditUpdate (banditMk ["a"]) "zz" 1).alpha y = (banditMk ["a"]).alpha y) ∧
     (∀ y, (banditUpdate (banditMk ["a"]) "zz" 1).beta y = (banditMk ["a"]).beta y)) :=
  have h : "zz" ∉ (banditMk ["a"]).item_ids := by simp [banditMk]
  ⟨h, bandit_update_unknown_noop (banditMk ["a"]) "zz" 1 h⟩

/-! ## Helper lemmas: metrics windows -/

lemma dequeAppend_length {α : Type} (maxlen : ℕ) (xs : List α) (x : α) :
    (dequeAppend maxlen xs x).length = min (xs.length + 1) maxlen := by
  unfold dequeAppend
  simp only [List.length_drop, List.length_append, List.length_singleton]
  omega

lemma dequeAppend_full {α : Type} (W : ℕ) (xs : List α) (x : α)
    (h : xs.length = W) (hW : 0 < W) :
    dequeAppend W xs x = xs.drop 1 ++ [x] := by
  unfold dequeAppend
  have h1 : xs.length + 1 - W = 1 := by omega
  simp only [List.length_append, List.length_singleton, h1]
  rw [List.drop_append_of_le_length (by omega)]

lemma recordRecommendation_window_size (m : MetricsTracker) (items : List String)
    (c : Option String) (l : Option ℚ) (u : Bool) :
    (recordRecommendation m items c l u).window_size = m.window_size := rfl

lemma recordEvents_window_size (es : List RecEvent) :
    ∀ m : MetricsTracker, (recordEvents m es).window_size = m.window_size := by
  induction es with
  | nil => intro m; rfl
  | cons e rest ih =>
    intro m
    rw [recordEvents, List.foldl_cons]
    exact ih (recordRecommendation m e.items e.clicked e.latency e.used_coldstart)

lemma recordEvents_length_exact (es : List RecEvent) :
    ∀ m : MetricsTracker, (∀ e ∈ es, e.latency ≠ none) →
      m.hit_events.length ≤ m.window_size → m.latencies.length ≤ m.window_size →
      (recordEvents m es).hit_events.length
          = min (m.hit_events.length + es.length) m.window_size ∧
      (recordEvents m es).latencies.length
          = min (m.latencies.length + es.length) m.window_size := by
  induction es with
  | nil =>
    intro m _ hb1 hb2
    constructor <;>
      simp only [recordEvents, List.foldl_nil, List.length_nil, Nat.add_zero] <;>
      omega
  | cons e rest ih =>
    intro m hlat hb1 hb2
    set m' := recordRecommendation m e.items e.clicked e.latency e.used_coldstart with hm'
    have hrest : ∀ e ∈ rest, e.latency ≠ none :=
      fun e he => hlat e (List.mem_cons_of_mem _ he)
    have hws : m'.window_size = m.window_size := rfl
    have hhit : m'.hit_events.length = min (m.hit_events.length + 1) m.window_size := by
      rw [hm']
      exact dequeAppend_length _ _ _
    have hlat' : m'.latencies.length = min (m.latencies.length + 1) m.window_size := by
      rcases hsome : e.latency with - | l
      · exact absurd hsome (hlat e (List.mem_cons_self e rest))
      · rw [hm']
        simp only [recordRecommendation, hsome]
        exact dequeAppend_length _ _ _
    obtain ⟨h1, h2⟩ := ih m' hrest (by rw [hhit, hws]; omega) (by rw [hlat', hws]; omega)
    have hstep : recordEvents m (e :: rest) = recordEvents m' rest := by
      rw [recordEvents, recordEvents, List.foldl_cons]
    rw [hstep]
    constructor
    · rw [h1, hhit, hws, List.length_cons]; omega
    · rw [h2, hlat', hws, List.length_cons]; omega

lemma recordEvents_length_le (es : List RecEvent) :
    ∀ m : MetricsTracker,
      m.hit_events.length ≤ m.window_size → m.latencies.length ≤ m.window_size →
      (recordEvents m es).hit_events.length ≤ m.window_size ∧
      (recordEvents m es).latencies.length ≤ m.window_size := by
  induction es with
  | nil => intro m h1 h2; exact ⟨h1, h2⟩
  | cons e rest ih =>
    intro m h1 h2
    set m' := recordRecommendation m e.items e.clicked e.latency e.used_coldstart with hm'
    have hh : m'.hit_events.length ≤ m.window_size := by
      rw [hm']
      rw [show m'.hit_events.length = min (m.hit_events.length + 1) m.window_size from
        dequeAppend_length _ _ _]
      omega
    have hl : m'.latencies.length ≤ m.window_size := by
      rcases hsome : e.latency with - | l
      · show (recordRecommendation m e.items e.clicked e.latency e.used_coldstart).latencies.length ≤ _
        simp only [recordRecommendation, hsome]
        exact h2
      · show (recordRecommendation m e.items e.clicked e.latency e.used_coldstart).latencies.length ≤ _
        simp only [recordRecommendation, hsome]
        rw [dequeAppend_length]
        omega
    have hstep : recordEvents m (e :: rest) = recordEvents m' rest := by
      rw [recordEvents, recordEvents, List.foldl_cons]
    rw [hstep]
    exact ih m' hh hl

/-! ## Claim theorem: metrics window (C7) -/

/-- C7: for a tracker with window size `W`: (i) after any sequence of record
calls each window holds at most `W` samples; (ii) once a window is full a
record evicts its oldest (leftmost) sample first; (iii) recording `N ≥ W`
samples (every call carrying a latency) leaves exactly `W` samples in each
window. -/
theorem metrics_window_invariant (W : ℕ) :
    (∀ es : List RecEvent,
      (recordEvents (metricsMk W) es).hit_events.length ≤ W ∧
      (recordEvents (metricsMk W) es).latencies.length ≤ W) ∧
    (∀ (m : MetricsTracker) (e : RecEvent), m.window_size = W → 0 < W →
      (m.hit_events.length = W →
        (recordRecommendation m e.items e.clicked e.latency e.used_coldstart).hit_events
          = m.hit_events.drop 1 ++ [hitValue e.items e.clicked]) ∧
      (∀ l, e.latency = some l → m.latencies.length = W →
        (recordRecommendation m e.items e.clicked e.latency e.used_coldstart).latencies
          = m.latencies.drop 1 ++ [l])) ∧
    (∀ es : List RecEvent, W ≤ es.length → (∀ e ∈ es, e.latency ≠ none) →
      (recordEvents (metricsMk W) es).hit_events.length = W ∧
      (recordEvents (metricsMk W) es).latencies.length = W) := by
  refine ⟨?_, ?_, ?_⟩
  · intro es
    exact recordEvents_length_le es (metricsMk W) (by simp [metricsMk]) (by simp [metricsMk])
  · intro m e hws hW
    constructor
    · intro hfull
      simp only [recordRecommendation]
      rw [hws, dequeAppend_full W _ _ hfull hW]
    · intro l hsome hfull
      simp only [recordRecommendation, hsome]
      rw [hws, dequeAppend_full W _ _ hfull hW]
  · intro es hN hlat
    obtain ⟨h1, h2⟩ := recordEvents_length_exact es (metricsMk W) hlat
      (by simp [metricsMk]) (by simp [metricsMk])
    rw [h1, h2]
    simp only [metricsMk, List.length_nil]
    omega

/-- C7 (witness): the theorem applied at `W = 2` with three record calls, all
carrying latencies; part (ii) instantiated on the state after two calls. -/
theorem metrics_window_invariant_witness :
    (let es := [RecEvent.mk [] none (some 1) false, RecEvent.mk [] none (some 2) false,
                RecEvent.mk [] none (some 3) false]
     (recordEvents (metricsMk 2) es).hit_events.length ≤ 2 ∧
     (recordEvents (metricsMk 2) es).latencies.length ≤ 2) ∧
    (let es := [RecEvent.mk [] none (some 1) false, RecEvent.mk [] none (some 2) false,
                RecEvent.mk [] none (some 3) false]
     2 ≤ es.length ∧ (∀ e ∈ es, e.latency ≠ none) ∧
     (recordEvents (metricsMk 2) es).hit_events.length = 2 ∧
     (recordEvents (metricsMk 2) es).latencies.length = 2) := by
  have h := metrics_window_invariant 2
  refine ⟨h.1 _, ?_⟩
  have hlat : ∀ e ∈ [RecEvent.mk [] none (some (1 : ℚ)) false,
      RecEvent.mk [] none (some 2) false, RecEvent.mk [] none (some 3) false],
      e.latency ≠ none := by
    intro e he
    simp only [List.mem_cons, List.not_mem_nil, or_false] at he
    rcases he with h' | h' | h' <;> simp [h']
  have hN : 2 ≤ ([RecEvent.mk [] none (some (1 : ℚ)) false,
      RecEvent.mk [] none (some 2) false, RecEvent.mk [] none (some 3) false]).length := by
    norm_num
  exact ⟨hN, hlat, h.2.2 _ hN hlat⟩

/-! ## Helper lemmas: feedback fold -/

lemma foldl_updateFeedback_item_ids (items : List String) (clicked : Option String) :
    ∀ h : ColdStartHandler,
      ((items.foldl
        (fun h item_id => updateFeedback h item_id (decide (clicked = some item_id)))
        h).bandit).item_ids = h.bandit.item_ids := by
  induction items with
  | nil => intro h; rfl
  | cons y ys ih =>
    intro h
    rw [List.foldl_cons, ih]
    exact banditUpdate_item_ids _ _ _

lemma foldl_updateFeedback_not_mem (items : List String) (clicked : Option String)
    (x : String) (hx : x ∉ items) :
    ∀ h : ColdStartHandler,
      ((items.foldl
        (fun h item_id => updateFeedback h item_id (decide (clicked = some item_id)))
        h).bandit).alpha x = h.bandit.alpha x ∧
      ((items.foldl
        (fun h item_id => updateFeedback h item_id (decide (clicked = some item_id)))
        h).bandit).beta x = h.bandit.beta x := by
  induction items with
  | nil => intro h; exact ⟨rfl, rfl⟩
  | cons y ys ih =>
    intro h
    have hxy : x ≠ y := fun he => hx (he ▸ List.mem_cons_self y ys)
    have hxys : x ∉ ys := fun he => hx (List.mem_cons_of_mem _ he)
    obtain ⟨ha, hb⟩ := ih hxys (updateFeedback h y (decide (clicked = some y)))
    rw [List.foldl_cons]
    refine ⟨?_, ?_⟩
    · rw [ha]
      exact banditUpdate_alpha_other _ _ _ _ hxy
    · rw [hb]
      exact banditUpdate_beta_other _ _ _ _ hxy

lemma foldl_updateFeedback_mem (items : List String) (clicked : Option String)
    (x : String) (hnd : items.Nodup) (hx : x ∈ items) :
    ∀ h : ColdStartHandler, x ∈ h.bandit.item_ids →
      ((items.foldl
        (fun h item_id => updateFeedback h item_id (decide (clicked = some item_id)))
        h).bandit).alpha x
        = h.bandit.alpha x + (if clicked = some x then 1 else 0) ∧
      ((items.foldl
        (fun h item_id => updateFeedback h item_id (decide (clicked = some item_id)))
        h).bandit).beta x
        = h.bandit.beta x + (if clicked = some x then 0 else 1) := by
  induction items with
  | nil => exact absurd hx (List.not_mem_nil x)
  | cons y ys ih =>
    intro h hmem
    rcases List.mem_cons.mp hx with hxy | hxys
    · subst hxy
      have hys : x ∉ ys := (List.nodup_cons.mp hnd).1
      have hstep := foldl_updateFeedback_not_mem ys clicked x hys
        (updateFeedback h x (decide (clicked = some x)))
      rw [List.foldl_cons]
      obtain ⟨ha, hb⟩ := hstep
      rw [ha, hb]
      simp only [updateFeedback]
      by_cases hc : clicked = some x
      · have hr : (if decide (clicked = some x) = true then (1 : ℚ) else 0) = 1 := by
          simp [hc]
        rw [hr, if_pos hc, if_pos hc]
        obtain ⟨hu1, hu2⟩ := banditUpdate_pos h.bandit x 1 hmem (by norm_num)
        exact ⟨hu1, by rw [hu2]; ring⟩
      · have hr : (if decide (clicked = some x) = true then (1 : ℚ) else 0) = 0 := by
          simp [hc]
        rw [hr, if_neg hc, if_neg hc]
        obtain ⟨hu1, hu2⟩ := banditUpdate_nonpos h.bandit x 0 hmem (by norm_num)
        exact ⟨by rw [hu1]; ring, hu2⟩
    · have hxy : x ≠ y := by
        intro he
        subst he
        exact (List.nodup_cons.mp hnd).1 hxys
      have hmem' : x ∈ (updateFeedback h y (decide (clicked = some y))).bandit.item_ids := by
        simp only [updateFeedback]
        rw [banditUpdate_item_ids]
        exact hmem
      obtain ⟨ha, hb⟩ := ih (List.nodup_cons.mp hnd).2 hxys
        (updateFeedback h y (decide (clicked = some y))) hmem'
      rw [List.foldl_cons]
      refine ⟨?_, ?_⟩
      · rw [ha]
        simp only [updateFeedback]
        rw [banditUpdate_alpha_other _ _ _ _ hxy]
      · rw [hb]
        simp only [updateFeedback]
        rw [banditUpdate_beta_other _ _ _ _ hxy]

/-! ## Claim theorem: feedback recording (C9) -/

/-- C9: `record_feedback` sends exactly one event to the metrics aggregator
with `used_coldstart = false` and no latency — so `model_requests` and
`total_requests` are incremented, `coldstart_requests` and the latency window
are untouched, and one hit flag is appended — and, for a duplicate-free
recommendation list, every recommended item known to the bandit receives
exactly one update with reward 1.0 if it equals the clicked item and 0.0
otherwise. -/
theorem record_feedback_spec (s : FeedbackState) (recommended_items : List String)
    (clicked_item : Option String) (hnd : recommended_items.Nodup) :
    (recordFeedback s recommended_items clicked_item).metrics.total_requests
        = s.metrics.total_requests + 1 ∧
    (recordFeedback s recommended_items clicked_item).metrics.model_requests
        = s.metrics.model_requests + 1 ∧
    (recordFeedback s recommended_items clicked_item).metrics.coldstart_requests
        = s.metrics.coldstart_requests ∧
    (recordFeedback s recommended_items clicked_item).metrics.latencies
        = s.metrics.latencies ∧
    (recordFeedback s recommended_items clicked_item).metrics.hit_events
        = dequeAppend s.metrics.window_size s.metrics.hit_events
            (hitValue recommended_items clicked_item) ∧
    ∀ x ∈ recommended_items, x ∈ s.coldstart.bandit.item_ids →
      (recordFeedback s recommended_items clicked_item).coldstart.bandit.alpha x
          = s.coldstart.bandit.alpha x + (if clicked_item = some x then 1 else 0) ∧
      (recordFeedback s recommended_items clicked_item).coldstart.bandit.beta x
          = s.coldstart.bandit.beta x + (if clicked_item = some x then 0 else 1) := by
  refine ⟨rfl, rfl, rfl, rfl, rfl, ?_⟩
  intro x hx hmem
  exact foldl_updateFeedback_mem recommended_items clicked_item x hnd hx s.coldstart hmem

/-- C9 (witness): the theorem applied to a concrete state (fresh tracker of
window 10, bandit over `{"a", "b"}`), recommended items `["a", "b"]` and
clicked item `"a"`. -/
theorem record_feedback_spec_witness :
    (["a", "b"] : List String).Nodup ∧
    (let s : FeedbackState :=
      { metrics := metricsMk 10, coldstart := { bandit := banditMk ["a", "b"], threshold := 2 } }
     (recordFeedback s ["a", "b"] (some "a")).metrics.total_requests
        = s.metrics.total_requests + 1 ∧
     (recordFeedback s ["a", "b"] (some "a")).metrics.model_requests
        = s.metrics.model_requests + 1 ∧
     (recordFeedback s ["a", "b"] (some "a")).metrics.coldstart_requests
        = s.metrics.coldstart_requests ∧
     (recordFeedback s ["a", "b"] (some "a")).metrics.latencies = s.metrics.latencies ∧
     (recordFeedback s ["a", "b"] (some "a")).metrics.hit_events
        = dequeAppend s.metrics.window_size s.metrics.hit_events
            (hitValue ["a", "b"] (some "a")) ∧
     ∀ x ∈ (["a", "b"] : List String), x ∈ s.coldstart.bandit.item_ids →
       (recordFeedback s ["a", "b"] (some "a")).coldstart.bandit.alpha x
          = s.coldstart.bandit.alpha x + (if (some "a" : Option String) = some x then 1 else 0) ∧
       (recordFeedback s ["a", "b"] (some "a")).coldstart.bandit.beta x
          = s.coldstart.bandit.beta x + (if (some "a" : Option String) = some x then 0 else 1)) :=
  have hnd : (["a", "b"] : List String).Nodup := by simp
  ⟨hnd, record_feedback_spec _ ["a", "b"] (some "a") hnd⟩

/-! ## Helper lemmas: catalog index maps -/

lemma assoc_entry_unique {α β : Type} (l : List (α × β))
    (hnd : (l.map Prod.fst).Nodup) (p q : α × β) (hp : p ∈ l) (hq : q ∈ l)
    (he : p.1 = q.1) : p = q :=
  List.inj_on_of_nodup_map hnd hp hq he

lemma find?_key_some {α β : Type} [BEq α] [LawfulBEq α] (l : List (α × β)) (k : α)
    (p : α × β) (hnd : (l.map Prod.fst).Nodup) (hp : p ∈ l) (hk : p.1 = k) :
    l.find? (fun q => q.1 == k) = some p := by
  rcases h : l.find? (fun q => q.1 == k) with - | q
  · exfalso
    have := List.find?_eq_none.mp h p hp
    simp [hk] at this
  · have h1 := List.find?_some h
    have h2 : q ∈ l := List.mem_of_find?_eq_some h
    have h3 : q.1 = k := eq_of_beq h1
    have hqp : q = p := assoc_entry_unique l hnd q p h2 hp (h3.trans hk.symm)
    rw [← hqp]
    exact h

lemma find?_key_none {α β : Type} [BEq α] [LawfulBEq α] (l : List (α × β)) (k : α)
    (h : ∀ p ∈ l, p.1 ≠ k) : l.find? (fun q => q.1 == k) = none := by
  apply List.find?_eq_none.mpr
  intro p hp
  simp [h p hp]

lemma catalogInv_empty : CatalogInv emptyCatalog := by
  refine ⟨rfl, ?_, ?_, ?_⟩ <;> simp [emptyCatalog]

lemma catalog_find?_isSome_iff (c : ItemCatalog) (id : String) :
    (c.item_to_idx.find? (fun p => p.1 == id)).isSome = true ↔
      id ∈ c.item_to_idx.map Prod.fst := by
  rw [List.find?_isSome]
  constructor
  · rintro ⟨p, hp, hpred⟩
    exact (eq_of_beq hpred) ▸ List.mem_map_of_mem Prod.fst hp
  · intro h
    rcases List.mem_map.mp h with ⟨p, hp, hid⟩
    exact ⟨p, hp, by simp [hid]⟩

lemma addItem_keys (c : ItemCatalog) (id : String) :
    (addItem c id).item_to_idx.map Prod.fst
      = (if id ∈ c.item_to_idx.map Prod.fst then c.item_to_idx.map Prod.fst
         else c.item_to_idx.map Prod.fst ++ [id]) := by
  unfold addItem
  by_cases h : id ∈ c.item_to_idx.map Prod.fst
  · rw [if_pos ((catalog_find?_isSome_iff c id).mpr h), if_pos h]
  · rw [if_neg ?hns, if_neg h]
    · simp
    · intro hs
      exact h ((catalog_find?_isSome_iff c id).mp hs)

lemma catalogInv_addItem (c : ItemCatalog) (hinv : CatalogInv c) (id : String) :
    CatalogInv (addItem c id) := by
  obtain ⟨hmir, hkeys, hvals, hbnd⟩ := hinv
  unfold addItem
  by_cases h : (c.item_to_idx.find? (fun p => p.1 == id)).isSome = true
  · rw [if_pos h]
    exact ⟨hmir, hkeys, hvals, hbnd⟩
  · rw [if_neg h]
    have hid : id ∉ c.item_to_idx.map Prod.fst := fun hm =>
      h ((catalog_find?_isSome_iff c id).mpr hm)
    refine ⟨?_, ?_, ?_, ?_⟩
    · simp only [List.map_append, hmir, List.map_cons, List.map_nil]
    · simp only [List.map_append, List.map_cons, List.map_nil]
      rw [List.nodup_append]
      refine ⟨hkeys, List.nodup_singleton id, ?_⟩
      intro a ha hb
      simp only [List.mem_singleton] at hb
      exact hid (hb ▸ ha)
    · simp only [List.map_append, List.map_cons, List.map_nil]
      rw [List.nodup_append]
      refine ⟨hvals, List.nodup_singleton _, ?_⟩
      intro a ha hb
      simp only [List.mem_singleton] at hb
      rcases List.mem_map.mp ha with ⟨p, hp, hpa⟩
      have := (hbnd p hp).2
      omega
    · intro p hp
      rcases List.mem_append.mp hp with hmem | hnew
      · have := hbnd p hmem
        simp only [List.length_append, List.length_cons, List.length_nil]
        omega
      · simp only [List.mem_singleton] at hnew
        subst hnew
        simp only [List.length_append, List.length_cons, List.length_nil]
        omega

lemma catalogInv_addItems (ids : List String) :
    ∀ c : ItemCatalog, CatalogInv c → CatalogInv (addItems c ids) := by
  induction ids with
  | nil => intro c hc; exact hc
  | cons y ys ih =>
    intro c hc
    rw [addItems, List.foldl_cons]
    exact ih (addItem c y) (catalogInv_addItem c hc y)

lemma addItems_keys_mem (ids : List String) :
    ∀ (c : ItemCatalog) (x : String),
      (x ∈ (addItems c ids).item_to_idx.map Prod.fst ↔
        x ∈ c.item_to_idx.map Prod.fst ∨ x ∈ ids) := by
  induction ids with
  | nil => intro c x; simp [addItems]
  | cons y ys ih =>
    intro c x
    rw [addItems, List.foldl_cons]
    have := ih (addItem c y) x
    rw [addItems] at this
    rw [this, addItem_keys]
    by_cases hy : y ∈ c.item_to_idx.map Prod.fst
    · rw [if_pos hy]
      constructor
      · rintro (h | h)
        · exact Or.inl h
        · exact Or.inr (List.mem_cons_of_mem _ h)
      · rintro (h | h)
        · exact Or.inl h
        · rcases List.mem_cons.mp h with he | hm
          · exact Or.inl (he ▸ hy)
          · exact Or.inr hm
    · rw [if_neg hy]
      constructor
      · rintro (h | h)
        · rcases List.mem_append.mp h with hm | hs
          · exact Or.inl hm
          · simp only [List.mem_singleton] at hs
            exact Or.inr (hs ▸ List.mem_cons_self y ys)
        · exact Or.inr (List.mem_cons_of_mem _ h)
      · rintro (h | h)
        · exact Or.inl (List.mem_append.mpr (Or.inl h))
        · rcases List.mem_cons.mp h with he | hm
          · exact Or.inl (List.mem_append.mpr (Or.inr (by simp [he])))
          · exact Or.inr hm

lemma getItemIndex_of_mem (c : ItemCatalog) (hinv : CatalogInv c)
    (p : String × ℕ) (hp : p ∈ c.item_to_idx) : getItemIndex c p.1 = p.2 := by
  unfold getItemIndex
  rw [find?_key_some c.item_to_idx p.1 p hinv.2.1 hp rfl]

lemma idx_keys_eq (c : ItemCatalog) (hinv : CatalogInv c) :
    c.idx_to_item.map Prod.fst = c.item_to_idx.map Prod.snd := by
  rw [hinv.1, List.map_map]
  rfl

lemma getItemId_of_mem (c : ItemCatalog) (hinv : CatalogInv c)
    (p : String × ℕ) (hp : p ∈ c.item_to_idx) : getItemId c p.2 = p.1 := by
  unfold getItemId
  have hmem : (p.2, p.1) ∈ c.idx_to_item := by
    rw [hinv.1]
    exact List.mem_map.mpr ⟨p, hp, rfl⟩
  have hnd : (c.idx_to_item.map Prod.fst).Nodup := by
    rw [idx_keys_eq c hinv]
    exact hinv.2.2.1
  rw [find?_key_some c.idx_to_item p.2 (p.2, p.1) hnd hmem rfl]

lemma getItemIndex_not_mem (c : ItemCatalog) (x : String)
    (hx : x ∉ c.item_to_idx.map Prod.fst) : getItemIndex c x = 0 := by
  unfold getItemIndex
  rw [find?_key_none]
  intro p hp he
  exact hx (he ▸ List.mem_map_of_mem Prod.fst hp)

lemma getItemId_zero (c : ItemCatalog) (hinv : CatalogInv c) :
    getItemId c 0 = "unknown" := by
  unfold getItemId
  rw [find?_key_none]
  intro p hp
  rw [hinv.1] at hp
  rcases List.mem_map.mp hp with ⟨q, hq, hqp⟩
  have := (hinv.2.2.2 q hq).1
  intro h0
  rw [← hqp] at h0
  simp only at h0
  omega

/-! ## Claim theorem: catalog roundtrip (C10) -/

/-- C10: over a catalog built by `add_items` from the empty catalog, every
added item id satisfies
`get_item_id(get_item_index(item_id)) = item_id`; every identifier never
added maps to the reserved padding index `0`; and `get_item_id(0)` is the
sentinel `"unknown"`. -/
theorem catalog_index_roundtrip (ids : List String) (x : String) :
    (x ∈ ids →
      getItemId (addItems emptyCatalog ids)
        (getItemIndex (addItems emptyCatalog ids) x) = x) ∧
    (x ∉ ids → getItemIndex (addItems emptyCatalog ids) x = 0) ∧
    getItemId (addItems emptyCatalog ids) 0 = "unknown" := by
  have hinv : CatalogInv (addItems emptyCatalog ids) :=
    catalogInv_addItems ids emptyCatalog catalogInv_empty
  have hkeys := addItems_keys_mem ids emptyCatalog x
  refine ⟨?_, ?_, getItemId_zero _ hinv⟩
  · intro hx
    have hxk : x ∈ (addItems emptyCatalog ids).item_to_idx.map Prod.fst := by
      rw [hkeys]
      exact Or.inr hx
    rcases List.mem_map.mp hxk with ⟨p, hp, hpx⟩
    subst hpx
    rw [getItemIndex_of_mem _ hinv p hp]
    exact getItemId_of_mem _ hinv p hp
  · intro hx
    apply getItemIndex_not_mem
    rw [hkeys]
    rintro (h | h)
    · simp [emptyCatalog] at h
    · exact hx h

/-- C10 (witness): the theorem applied at the catalog built from
`["a", "b"]`, the added id `"b"` and the never-added id `"zz"`. -/
theorem catalog_index_roundtrip_witness :
    getItemId (addItems emptyCatalog ["a", "b"])
        (getItemIndex (addItems emptyCatalog ["a", "b"]) "b") = "b" ∧
    getItemIndex (addItems emptyCatalog ["a", "b"]) "zz" = 0 ∧
    getItemId (addItems emptyCatalog ["a", "b"]) 0 = "unknown" :=
  ⟨(catalog_index_roundtrip ["a", "b"] "b").1 (by simp),
   (catalog_index_roundtrip ["a", "b"] "zz").2.1 (by simp),
   (catalog_index_roundtrip ["a", "b"] "b").2.2⟩

/-! ## Helper lemmas: percentiles -/

lemma pyRound2_zero : pyRound2 0 = 0 := by
  norm_num [pyRound2, roundHalfEven]

lemma npPercentile_between (xs : List ℚ) (q : ℚ) (hne : xs ≠ [])
    (h0 : 0 ≤ q) (h100 : q ≤ 100) :
    (∃ a ∈ xs, a ≤ npPercentile xs q) ∧ (∃ b ∈ xs, npPercentile xs q ≤ b) := by
  have hperm := List.perm_insertionSort (fun a b : ℚ => a ≤ b) xs
  have hsorted := List.sorted_insertionSort (fun a b : ℚ => a ≤ b) xs
  set ys := List.insertionSort (fun a b : ℚ => a ≤ b) xs with hys
  have hlen0 : ys.length ≠ 0 := by
    rw [hperm.length_eq]
    intro h
    exact hne (List.length_eq_zero.mp h)
  have hn1 : 1 ≤ ys.length := Nat.one_le_iff_ne_zero.mpr hlen0
  simp only [npPercentile, ← hys, if_neg hlen0]
  set pos : ℚ := q / 100 * ((ys.length : ℚ) - 1) with hposdef
  set lo : ℕ := (Int.floor pos).toNat with hlodef
  have hn1q : (1 : ℚ) ≤ (ys.length : ℚ) := by exact_mod_cast hn1
  have hpos_nonneg : 0 ≤ pos := by
    apply mul_nonneg (div_nonneg h0 (by norm_num))
    linarith
  have hpos_le : pos ≤ (ys.length : ℚ) - 1 := by
    have hq1 : q / 100 ≤ 1 := (div_le_one (by norm_num)).mpr h100
    calc q / 100 * ((ys.length : ℚ) - 1)
        ≤ 1 * ((ys.length : ℚ) - 1) := by
          apply mul_le_mul_of_nonneg_right hq1
          linarith
      _ = (ys.length : ℚ) - 1 := one_mul _
  have hfl : 0 ≤ Int.floor pos := Int.floor_nonneg.mpr hpos_nonneg
  have hlo_cast : (lo : ℚ) = (Int.floor pos : ℚ) := by
    rw [hlodef]
    exact_mod_cast congrArg (fun z : ℤ => (z : ℚ)) (Int.toNat_of_nonneg hfl)
  have hlo_le_pos : (lo : ℚ) ≤ pos := by
    rw [hlo_cast]
    exact Int.floor_le pos
  have hpos_lt : pos < (lo : ℚ) + 1 := by
    rw [hlo_cast]
    exact_mod_cast Int.lt_floor_add_one pos
  have hlo_lt : lo < ys.length := by
    have h1 : (lo : ℚ) ≤ (ys.length : ℚ) - 1 := le_trans hlo_le_pos hpos_le
    have h2 : (lo : ℚ) < (ys.length : ℚ) := by linarith
    exact_mod_cast h2
  have hA : ys.getD lo 0 = ys.get ⟨lo, hlo_lt⟩ := by
    simp [List.getD_eq_getElem?_getD, List.getElem?_eq_getElem hlo_lt]
  set A := ys.getD lo 0 with hAdef
  have hmemA : A ∈ xs := hperm.subset (hA ▸ List.get_mem ys lo hlo_lt)
  have hfrac0 : 0 ≤ pos - (lo : ℚ) := by linarith
  have hfrac1 : pos - (lo : ℚ) ≤ 1 := by linarith
  rcases Nat.lt_or_ge (lo + 1) ys.length with hb | hb
  · -- interpolation between two adjacent elements of the sorted window
    have hB : ys.getD (lo + 1) A = ys.get ⟨lo + 1, hb⟩ := by
      simp [List.getD_eq_getElem?_getD, List.getElem?_eq_getElem hb]
    set B := ys.getD (lo + 1) A with hBdef
    have hmemB : B ∈ xs := hperm.subset (hB ▸ List.get_mem ys (lo + 1) hb)
    have hAB : A ≤ B := by
      rw [hA, hB]
      exact List.Sorted.rel_get_of_lt hsorted (by exact Nat.lt_succ_self lo)
    constructor
    · exact ⟨A, hmemA, by nlinarith⟩
    · exact ⟨B, hmemB, by nlinarith⟩
  · -- the floor index is the last element; the default makes b = a
    have hB : ys.getD (lo + 1) A = A := List.getD_eq_default _ _ hb
    rw [hB]
    constructor
    · exact ⟨A, hmemA, by nlinarith⟩
    · exact ⟨A, hmemA, by nlinarith⟩

/-! ## Claim theorems: summary percentiles (C4) -/

/-- C4 (counterexample): with latency window `[0, 100]` the summary's p50 is
`50`, whereas the nearest-rank percentile of that window is `0`; `50` is not
even an element of the window, refuting "summary's p50 and p99 latency
values equal the nearest-rank percentile (... with no interpolation between
elements)" — `numpy.percentile`'s default linear interpolation is used. -/
theorem summary_percentile_counterexample :
    (getMetricsSummary
      (recordRecommendation
        (recordRecommendation (metricsMk 100) [] none (some 0) false)
        [] none (some 100) false)).p50_latency_ms = 50 ∧
    nearestRankPercentile [0, 100] 50 = 0 ∧
    (50 : ℚ) ∉ ([0, 100] : List ℚ) := by
  have hlat : (recordRecommendation
      (recordRecommendation (metricsMk 100) [] none (some 0) false)
      [] none (some 100) false).latencies = [0, 100] := by
    simp [recordRecommendation, metricsMk, dequeAppend]
  have hsort : List.insertionSort (fun a b : ℚ => a ≤ b) [0, 100] = [0, 100] := by
    norm_num [List.insertionSort, List.orderedInsert]
  have hnp : npPercentile [0, 100] 50 = 50 := by
    have hfloor : Int.floor ((50 : ℚ) / 100 * ((2 : ℚ) - 1)) = 0 := by norm_num
    simp only [npPercentile, hsort]
    norm_num [hfloor]
  refine ⟨?_, ?_, by norm_num⟩
  · have : calculateP50Latency (recordRecommendation
        (recordRecommendation (metricsMk 100) [] none (some 0) false)
        [] none (some 100) false) = 50 := by
      rw [calculateP50Latency, hlat, if_neg (by simp : ¬([0, 100] : List ℚ) = [])]
      exact hnp
    simp only [getMetricsSummary, this]
    norm_num [pyRound2, roundHalfEven]
  · have hceil : Int.ceil ((50 : ℚ) / 100 * ((2 : ℚ))) = 1 := by norm_num
    simp only [nearestRankPercentile, hsort]
    norm_num [hceil]

/-- C4 (amended): the summary's p50 and p99 latency values are the
linear-interpolation percentile that `numpy.percentile` computes by default
(rounded to two decimals for presentation), not the nearest-rank percentile:
on a non-empty window each value linearly interpolates between two elements
of the window (so it lies between two window elements but need not equal
any); on the empty window both are 0. -/
theorem summary_percentiles_linear_interpolation (m : MetricsTracker) :
    (m.latencies = [] →
      (getMetricsSummary m).p50_latency_ms = 0 ∧
      (getMetricsSummary m).p99_latency_ms = 0) ∧
    (m.latencies ≠ [] →
      (getMetricsSummary m).p50_latency_ms = pyRound2 (npPercentile m.latencies 50) ∧
      (getMetricsSummary m).p99_latency_ms = pyRound2 (npPercentile m.latencies 99) ∧
      ((∃ a ∈ m.latencies, a ≤ npPercentile m.latencies 50) ∧
       (∃ b ∈ m.latencies, npPercentile m.latencies 50 ≤ b)) ∧
      ((∃ a ∈ m.latencies, a ≤ npPercentile m.latencies 99) ∧
       (∃ b ∈ m.latencies, npPercentile m.latencies 99 ≤ b))) := by
  constructor
  · intro h
    constructor
    · simp only [getMetricsSummary, calculateP50Latency, if_pos h]
      exact pyRound2_zero
    · simp only [getMetricsSummary, calculateP99Latency, if_pos h]
      exact pyRound2_zero
  · intro h
    refine ⟨?_, ?_, ?_, ?_⟩
    · simp only [getMetricsSummary, calculateP50Latency, if_neg h]
    · simp only [getMetricsSummary, calculateP99Latency, if_neg h]
    · exact npPercentile_between m.latencies 50 h (by norm_num) (by norm_num)
    · exact npPercentile_between m.latencies 99 h (by norm_num) (by norm_num)

/-- C4 (witness): the amended theorem applied at a tracker whose latency
window holds `[10]` after one record call. -/
theorem summary_percentiles_linear_interpolation_witness :
    (recordRecommendation (metricsMk 5) [] none (some 10) false).latencies ≠ [] ∧
    ((getMetricsSummary (recordRecommendation (metricsMk 5) [] none (some 10) false)).p50_latency_ms
        = pyRound2 (npPercentile (recordRecommendation (metricsMk 5) [] none (some 10) false).latencies 50) ∧
     (getMetricsSummary (recordRecommendation (metricsMk 5) [] none (some 10) false)).p99_latency_ms
        = pyRound2 (npPercentile (recordRecommendation (metricsMk 5) [] none (some 10) false).latencies 99) ∧
     ((∃ a ∈ (recordRecommendation (metricsMk 5) [] none (some 10) false).latencies,
         a ≤ npPercentile (recordRecommendation (metricsMk 5) [] none (some 10) false).latencies 50) ∧
      (∃ b ∈ (recordRecommendation (metricsMk 5) [] none (some 10) false).latencies,
         npPercentile (recordRecommendation (metricsMk 5) [] none (some 10) false).latencies 50 ≤ b)) ∧
     ((∃ a ∈ (recordRecommendation (metricsMk 5) [] none (some 10) false).latencies,
         a ≤ npPercentile (recordRecommendation (metricsMk 5) [] none (some 10) false).latencies 99) ∧
      (∃ b ∈ (recordRecommendation (metricsMk 5) [] none (some 10) false).latencies,
         npPercentile (recordRecommendation (metricsMk 5) [] none (some 10) false).latencies 99 ≤ b))) :=
  have h : (recordRecommendation (metricsMk 5) [] none (some 10) false).latencies ≠ [] := by
    simp [recordRecommendation, metricsMk, dequeAppend]
  ⟨h, (summary_percentiles_linear_interpolation _).2 h⟩

/-! ## Claim theorems: orchestrator failure paths (C1, C3) -/

/-- C1 (counterexample): on a non-cold session (length 2, threshold 2) whose
Sequence Scorer raises, `get_recommendations` surfaces the error to the
caller instead of returning the cold-start list with `used_coldstart = true`
— `get_recommendations` and `_get_model_recommendations` contain no
`try`/`except`. -/
theorem get_recommendations_scorer_error_counterexample :
    getRecommendations
      { threshold := 2
        top_k := 5
        sequence_length := 5
        get_session_length := fun _ => Except.ok 2
        get_item_sequence := fun _ _ => Except.ok ["a"]
        predict_next_items := fun _ _ => Except.error "ScorerUnavailable"
        catalog := addItems emptyCatalog ["a"]
        coldstart_recs := fun _ => ["t1", "t2", "t3", "t4", "t5"] } "s"
      = Except.error "ScorerUnavailable" := rfl

/-- C1 (amended): for every request on a non-cold session, if the Session
Store read or the Sequence Scorer call of the model-based recommendation
step raises, `get_recommendations` propagates that error to the caller — no
cold-start fallback happens and no `used_coldstart = true` result is
returned. -/
theorem get_recommendations_error_propagation (env : OrchestratorEnv)
    (session_id : String) (n : ℕ) (e : String)
    (hlen : env.get_session_length session_id = Except.ok n)
    (hwarm : env.threshold ≤ n) :
    (env.get_item_sequence session_id env.sequence_length = Except.error e →
      getRecommendations env session_id = Except.error e) ∧
    (∀ items, env.get_item_sequence session_id env.sequence_length = Except.ok items →
      items ≠ [] →
      env.predict_next_items
          (padTruncate env.sequence_length (items.map (getItemIndex env.catalog)))
          env.top_k
        = Except.error e →
      getRecommendations env session_id = Except.error e) := by
  have hcold : shouldUseColdstart env.threshold n = false := by
    simp only [shouldUseColdstart, decide_eq_false_iff_not]
    omega
  constructor
  · intro hseq
    simp [getRecommendations, getModelRecommendations, hlen, hcold, hseq,
      Bind.bind, Except.bind, Functor.map, Except.map, pure, Except.pure]
  · intro items hseq hne hpred
    simp [getRecommendations, getModelRecommendations, hlen, hcold, hseq, hne, hpred,
      Bind.bind, Except.bind, Functor.map, Except.map, pure, Except.pure]

/-- C1 (witness): the amended theorem applied at the counterexample's
environment (session length 2, threshold 2, scorer raising). -/
theorem get_recommendations_error_propagation_witness :
    (OrchestratorEnv.get_session_length
        { threshold := 2
          top_k := 5
          sequence_length := 5
          get_session_length := fun _ => Except.ok 2
          get_item_sequence := fun _ _ => Except.ok ["a"]
          predict_next_items := fun _ _ => Except.error "ScorerUnavailable"
          catalog := addItems emptyCatalog ["a"]
          coldstart_recs := fun _ => ["t1", "t2", "t3", "t4", "t5"] } "s" = Except.ok 2) ∧
    (∀ items,
      OrchestratorEnv.get_item_sequence
          { threshold := 2
            top_k := 5
            sequence_length := 5
            get_session_length := fun _ => Except.ok 2
            get_item_sequence := fun _ _ => Except.ok ["a"]
            predict_next_items := fun _ _ => Except.error "ScorerUnavailable"
            catalog := addItems emptyCatalog ["a"]
            coldstart_recs := fun _ => ["t1", "t2", "t3", "t4", "t5"] } "s" 5
          = Except.ok items →
      items ≠ [] →
      OrchestratorEnv.predict_next_items
          { threshold := 2
            top_k := 5
            sequence_length := 5
            get_session_length := fun _ => Except.ok 2
            get_item_sequence := fun _ _ => Except.ok ["a"]
            predict_next_items := fun _ _ => Except.error "ScorerUnavailable"
            catalog := addItems emptyCatalog ["a"]
            coldstart_recs := fun _ => ["t1", "t2", "t3", "t4", "t5"] }
          (padTruncate 5 (items.map (getItemIndex (addItems emptyCatalog ["a"])))) 5
          = Except.error "ScorerUnavailable" →
      getRecommendations
          { threshold := 2
            top_k := 5
            sequence_length := 5
            get_session_length := fun _ => Except.ok 2
            get_item_sequence := fun _ _ => Except.ok ["a"]
            predict_next_items := fun _ _ => Except.error "ScorerUnavailable"
            catalog := addItems emptyCatalog ["a"]
            coldstart_recs := fun _ => ["t1", "t2", "t3", "t4", "t5"] } "s"
          = Except.error "ScorerUnavailable") :=
  ⟨rfl,
    (get_recommendations_error_propagation _ "s" 2 "ScorerUnavailable" rfl
      (by norm_num)).2⟩

/-- C3 (counterexample): on a non-cold session (length 3, threshold 2) whose
stored item sequence reads back empty, `get_recommendations` does return the
Cold-Start Policy's list but reports `used_coldstart = false`, refuting
"returns used_coldstart = true" — the flag is set per routing branch in
`get_recommendations` and the defensive fallback happens inside
`_get_model_recommendations`, which cannot influence it. -/
theorem get_recommendations_empty_sequence_counterexample :
    getRecommendations
      { threshold := 2
        top_k := 5
        sequence_length := 5
        get_session_length := fun _ => Except.ok 3
        get_item_sequence := fun _ _ => Except.ok []
        predict_next_items := fun _ _ => Except.ok []
        catalog := emptyCatalog
        coldstart_recs := fun _ => ["t1", "t2", "t3", "t4", "t5"] } "s"
      = Except.ok (["t1", "t2", "t3", "t4", "t5"], false) := rfl

/-- C3 (amended): for every request whose session length is at or above the
cold-start threshold but whose session item sequence reads back empty,
`get_recommendations` falls back to the Cold-Start Policy's recommendations
but reports `used_coldstart = false`. -/
theorem get_recommendations_empty_sequence_fallback (env : OrchestratorEnv)
    (session_id : String) (n : ℕ)
    (hlen : env.get_session_length session_id = Except.ok n)
    (hwarm : env.threshold ≤ n)
    (hseq : env.get_item_sequence session_id env.sequence_length = Except.ok []) :
    getRecommendations env session_id
      = Except.ok (env.coldstart_recs env.top_k, false) := by
  have hcold : shouldUseColdstart env.threshold n = false := by
    simp only [shouldUseColdstart, decide_eq_false_iff_not]
    omega
  simp [getRecommendations, getModelRecommendations, hlen, hcold, hseq,
    Bind.bind, Except.bind, Functor.map, Except.map, pure, Except.pure]

/-- C3 (witness): the amended theorem applied at the counterexample's
environment (session length 3, threshold 2, empty stored sequence). -/
theorem get_recommendations_empty_sequence_fallback_witness :
    (OrchestratorEnv.get_session_length
        { threshold := 2
          top_k := 5
          sequence_length := 5
          get_session_length := fun _ => Except.ok 3
          get_item_sequence := fun _ _ => Except.ok []
          predict_next_items := fun _ _ => Except.ok []
          catalog := emptyCatalog
          coldstart_recs := fun _ => ["t1", "t2", "t3", "t4", "t5"] } "s" = Except.ok 3) ∧
    getRecommendations
        { threshold := 2
          top_k := 5
          sequence_length := 5
          get_session_length := fun _ => Except.ok 3
          get_item_sequence := fun _ _ => Except.ok []
          predict_next_items := fun _ _ => Except.ok []
          catalog := emptyCatalog
          coldstart_recs := fun _ => ["t1", "t2", "t3", "t4", "t5"] } "s"
      = Except.ok
          (OrchestratorEnv.coldstart_recs
            { threshold := 2
              top_k := 5
              sequence_length := 5
              get_session_length := fun _ => Except.ok 3
              get_item_sequence := fun _ _ => Except.ok []
              predict_next_items := fun _ _ => Except.ok []
              catalog := emptyCatalog
              coldstart_recs := fun _ => ["t1", "t2", "t3", "t4", "t5"] } 5, false) :=
  ⟨rfl, get_recommendations_empty_sequence_fallback _ "s" 3 rfl (by norm_num) rfl⟩
